import Mathlib

/-!
Shallow embedding of `src/analisis_desarrollo_Version2.py` (class
`ProyectoSoftware`): a mutable project record with a fixed six-phase
lifecycle, a requirement list, a team roster, two dates, and JSON
export/import.  Python state is threaded explicitly; file I/O is
modeled as a map from (absolute) paths to file contents, where a file
content is either a parsed JSON value or an unparseable text; machine
floats appear only in `resumen_progreso`, whose float computation
agrees with exact integer division on every reachable input (see the
comment there).
-/

set_option maxRecDepth 4000

/-- Whitespace characters stripped by Python `str.strip()` (ASCII fragment;
the source never feeds non-ASCII whitespace to `strip`). -/
def isPySpace (c : Char) : Bool :=
  c == ' ' || c == '\t' || c == '\n' || c == '\r' || c == '\x0b' || c == '\x0c'

/-- Python `str.strip()`: drop leading and trailing whitespace. -/
def pyStrip (s : String) : String :=
  String.mk (((s.data.dropWhile isPySpace).reverse.dropWhile isPySpace).reverse)

/-- Lowercasing of one character as Python `str.lower()` does it, on the
ASCII and Latin-1 letters (the only letters the source manipulates:
the phase strings use only ASCII plus a-acute, e-tilde-free Latin-1
letters such as ñ and á, which are already lowercase). -/
def pyLowerChar (c : Char) : Char :=
  if 'A' ≤ c ∧ c ≤ 'Z' then Char.ofNat (c.toNat + 32)
  else if 'À' ≤ c ∧ c ≤ 'Þ' ∧ c ≠ '×' then Char.ofNat (c.toNat + 32)
  else c

/-- Python `str.lower()` on the modeled character range. -/
def pyLower (s : String) : String :=
  String.mk (s.data.map pyLowerChar)

/-- Calendar date (`datetime.date`): year, month, day. -/
structure Date where
  year : Nat
  month : Nat
  day : Nat
deriving DecidableEq, Repr

/-- Gregorian leap year, as `datetime` computes it. -/
def isLeap (y : Nat) : Bool :=
  y % 4 == 0 && (y % 100 != 0 || y % 400 == 0)

/-- Days in a month, as `datetime` computes it. -/
def daysInMonth (y m : Nat) : Nat :=
  if m = 2 then (if isLeap y then 29 else 28)
  else if m = 4 ∨ m = 6 ∨ m = 9 ∨ m = 11 then 30
  else 31

/-- Validity of a date under the `datetime.date` constructor
(`MINYEAR = 1`, `MAXYEAR = 9999`, month and day in range). Every
Python `date` object satisfies this by construction. -/
def Date.valid (d : Date) : Prop :=
  1 ≤ d.year ∧ d.year ≤ 9999 ∧ 1 ≤ d.month ∧ d.month ≤ 12 ∧
    1 ≤ d.day ∧ d.day ≤ daysInMonth d.year d.month

instance (d : Date) : Decidable d.valid := by
  unfold Date.valid; infer_instance

/-- Value of a decimal digit character, `none` on a non-digit. -/
def parseDigit (c : Char) : Option Nat :=
  if '0' ≤ c ∧ c ≤ '9' then some (c.toNat - 48) else none

/-- Decimal digit character for `n < 10`. -/
def digitChar : Nat → Char
  | 0 => '0' | 1 => '1' | 2 => '2' | 3 => '3' | 4 => '4'
  | 5 => '5' | 6 => '6' | 7 => '7' | 8 => '8' | 9 => '9'
  | _ => '0'

/-- Last two decimal digits, as printed by a `%02d` field of
`date.isoformat` (month and day are at most two digits wide). -/
def twoDigits (n : Nat) : List Char :=
  [digitChar (n / 10 % 10), digitChar (n % 10)]

/-- Four decimal digits, as printed by the `%04d` year field of
`date.isoformat` (Python years never exceed 9999). -/
def fourDigits (n : Nat) : List Char :=
  [digitChar (n / 1000 % 10), digitChar (n / 100 % 10),
   digitChar (n / 10 % 10), digitChar (n % 10)]

/-- Python `date.isoformat()`: `YYYY-MM-DD`, zero padded. -/
def dateToIso (d : Date) : String :=
  String.mk (fourDigits d.year ++ '-' :: twoDigits d.month ++ '-' :: twoDigits d.day)

/-- Construction of a `date` with the constructor range checks of
`datetime.date`; the out-of-range case models the `ValueError`. -/
def mkValidDate (y m dy : Nat) : Option Date :=
  if Date.valid ⟨y, m, dy⟩ then some ⟨y, m, dy⟩ else none

/-- Character-level parse of a strict `YYYY-MM-DD` string, following
CPython `date.fromisoformat` (exactly ten characters, digits in the
date positions, dashes at positions 4 and 7, constructor range checks). -/
def charsToDate (cs : List Char) : Option Date :=
  match cs with
  | [y1, y2, y3, y4, s1, m1, m2, s2, d1, d2] =>
    if s1 = '-' ∧ s2 = '-' then
      (parseDigit y1).bind fun a1 =>
      (parseDigit y2).bind fun a2 =>
      (parseDigit y3).bind fun a3 =>
      (parseDigit y4).bind fun a4 =>
      (parseDigit m1).bind fun b1 =>
      (parseDigit m2).bind fun b2 =>
      (parseDigit d1).bind fun c1 =>
      (parseDigit d2).bind fun c2 =>
      mkValidDate (((a1 * 10 + a2) * 10 + a3) * 10 + a4) (b1 * 10 + b2) (c1 * 10 + c2)
    else none
  | _ => none

/-- Python `date.fromisoformat`, success as `some`, `ValueError` as `none`. -/
def parseIsoDate (s : String) : Option Date :=
  charsToDate s.data

/-- Two-digit component value used by the time parser. -/
def twoDigVal (a b : Char) : Option Nat :=
  (parseDigit a).bind fun x => (parseDigit b).bind fun y => some (x * 10 + y)

/-- Value of a run of decimal digits. -/
def digitsVal (cs : List Char) : Nat :=
  cs.foldl (fun acc c => acc * 10 + ((parseDigit c).getD 0)) 0

/-- Fractional-second field of CPython `_parse_hh_mm_ss_ff`: exactly 3 or 6
digits, scaled to microseconds. -/
def parseFrac (cs : List Char) : Option Nat :=
  if cs.length = 3 ∧ cs.all (fun c => (parseDigit c).isSome) then
    some (digitsVal cs * 1000)
  else if cs.length = 6 ∧ cs.all (fun c => (parseDigit c).isSome) then
    some (digitsVal cs)
  else none

/-- CPython `_parse_hh_mm_ss_ff`: `HH[:MM[:SS[.fff or .ffffff]]]` into
(hour, minute, second, microsecond) with no range checks (the range
checks belong to the `time`, `timedelta` and `timezone` constructors). -/
def parseHMSF : List Char → Option (Nat × Nat × Nat × Nat)
  | [h1, h2] => (twoDigVal h1 h2).map fun h => (h, 0, 0, 0)
  | [h1, h2, ':', m1, m2] =>
    (twoDigVal h1 h2).bind fun h => (twoDigVal m1 m2).map fun m => (h, m, 0, 0)
  | [h1, h2, ':', m1, m2, ':', s1, s2] =>
    (twoDigVal h1 h2).bind fun h => (twoDigVal m1 m2).bind fun m =>
      (twoDigVal s1 s2).map fun s => (h, m, s, 0)
  | h1 :: h2 :: ':' :: m1 :: m2 :: ':' :: s1 :: s2 :: '.' :: frac =>
    (twoDigVal h1 h2).bind fun h => (twoDigVal m1 m2).bind fun m =>
      (twoDigVal s1 s2).bind fun s => (parseFrac frac).map fun us => (h, m, s, us)
  | _ => none

/-- Range checks of the `time` constructor on a parsed time-of-day. -/
def timeOK (cs : List Char) : Bool :=
  match parseHMSF cs with
  | some (h, m, s, _) => decide (h ≤ 23) && decide (m ≤ 59) && decide (s ≤ 59)
  | none => false

/-- Timezone suffix after the sign, as CPython `_parse_isoformat_time`
accepts it: length 5, 8 or 15 (`HH:MM`, `HH:MM:SS`, `HH:MM:SS.ffffff`),
parsed like a time, and the resulting offset strictly below 24 hours
(the `timezone` constructor check). -/
def tzOK (cs : List Char) : Bool :=
  (decide (cs.length = 5) || decide (cs.length = 8) || decide (cs.length = 15)) &&
    match parseHMSF cs with
    | some (h, m, s, us) => decide ((h * 3600 + m * 60 + s) * 1000000 + us < 86400000000)
    | none => false

/-- Index of the first occurrence of an element in a list. -/
def listIndexOf {α : Type} [DecidableEq α] : List α → α → Option Nat
  | [], _ => none
  | a :: rest, s => if a = s then some 0 else (listIndexOf rest s).map (· + 1)

/-- CPython `_parse_isoformat_time` splits the time string at the first
minus sign if any, else at the first plus sign, into a time-of-day part
and a timezone part. -/
def validIsoTime (cs : List Char) : Bool :=
  match (match listIndexOf cs '-' with
         | some i => some i
         | none => listIndexOf cs '+') with
  | none => timeOK cs
  | some i => timeOK (cs.take i) && tzOK (cs.drop (i + 1))

/-- Python `datetime.fromisoformat` restricted to the date it carries:
`YYYY-MM-DD[*HH[:MM[:SS[.fff[fff]]]][+HH:MM[:SS[.ffffff]]]]` where `*`
is any single separator character (CPython 3.10 behavior); `none`
models the `ValueError`. -/
def parseIsoDatetimeDate (s : String) : Option Date :=
  let cs := s.data
  if cs.length = 10 then charsToDate cs
  else if 11 ≤ cs.length then
    match charsToDate (cs.take 10) with
    | some d => if validIsoTime (cs.drop 11) then some d else none
    | none => none
  else none

/-- JSON values, the result of `json.load` (numbers restricted to the
integers, the only numbers the source produces). -/
inductive JValue where
  | null : JValue
  | bool (b : Bool) : JValue
  | num (n : Int) : JValue
  | str (s : String) : JValue
  | arr (xs : List JValue) : JValue
  | obj (kvs : List (String × JValue)) : JValue

/-- Lookup of a key in a JSON object (`dict.get`); `json.load` keeps the
last value of a duplicated key, hence the fold from the left. -/
def jget (kvs : List (String × JValue)) (k : String) : Option JValue :=
  kvs.foldl (fun acc kv => if kv.1 = k then some kv.2 else acc) none

/-- The project record of the dataclass `ProyectoSoftware`.  The list
fields are the post-`__post_init__` lists (never `None`); `fecha_inicio`
stays an `Option` as in the dataclass, with the invariant that
construction always fills it. -/
structure ProyectoSoftware where
  nombre : String
  descripcion : String
  requerimientos : List String
  fase_actual : String
  equipo : List String
  fecha_inicio : Option Date
  fecha_fin_estimada : Option Date
deriving DecidableEq, Repr

/-- Class constant `CICLO_VIDA`: the six lifecycle phases in order. -/
def CICLO_VIDA : List String :=
  ["análisis", "diseño", "desarrollo", "pruebas", "implementación", "mantenimiento"]

/-- Normalization of a supplied phase in `__post_init__`:
`(self.fase_actual or "análisis").strip().lower()` (the `or` catches the
falsy empty string and `None`, modeled as the empty string). -/
def normFase (s : String) : String :=
  pyLower (pyStrip (if s = "" then "análisis" else s))

/-- Phase validation of `__post_init__`: the normalized phase if it is a
lifecycle member, else the reset to `"análisis"`. -/
def validarFase (s : String) : String :=
  let f := normFase s
  if f ∈ CICLO_VIDA then f else "análisis"

/-- Dataclass construction followed by `__post_init__`: `None` lists
become empty, the phase is normalized and validated, and a missing
`fecha_inicio` defaults to `date.today()`, passed in as `today`. -/
def mkProyecto (today : Date) (nombre descripcion : String)
    (requerimientos : Option (List String)) (fase_actual : String)
    (equipo : Option (List String))
    (fecha_inicio fecha_fin_estimada : Option Date) : ProyectoSoftware :=
  { nombre := nombre
    descripcion := descripcion
    requerimientos := requerimientos.getD []
    fase_actual := validarFase fase_actual
    equipo := equipo.getD []
    fecha_inicio := some (fecha_inicio.getD today)
    fecha_fin_estimada := fecha_fin_estimada }

/-- Method `avanzar_fase`: locate the current phase (on the
`ValueError` of `list.index` the phase is reset to `"análisis"` with
index 0), then advance to the next phase and return `True` unless the
index is the last one, in which case return `False` unchanged.  The
returned pair is (return value, state after the call). -/
def avanzar_fase (p : ProyectoSoftware) : Bool × ProyectoSoftware :=
  let (idx, p1) :=
    match listIndexOf CICLO_VIDA p.fase_actual with
    | some i => (i, p)
    | none => (0, { p with fase_actual := "análisis" })
  if idx < CICLO_VIDA.length - 1 then
    (true, { p1 with fase_actual := CICLO_VIDA.getD (idx + 1) "análisis" })
  else
    (false, p1)

/-- The raised `ValueError` of `agregar_requerimiento`. -/
inductive PyError where
  | valueError : PyError
deriving DecidableEq, Repr

/-- Method `agregar_requerimiento`: reject an empty or whitespace-only
requirement with `ValueError`, silently drop a duplicate under the
trimmed case-insensitive comparison of the source, else append the
trimmed text. -/
def agregar_requerimiento (p : ProyectoSoftware) (nuevo_requerimiento : String) :
    Except PyError ProyectoSoftware :=
  if nuevo_requerimiento = "" ∨ pyStrip nuevo_requerimiento = "" then
    .error .valueError
  else
    let req_clean := pyStrip nuevo_requerimiento
    if p.requerimientos.any (fun r => pyLower (pyStrip r) == pyLower req_clean) then
      .ok p
    else
      .ok { p with requerimientos := p.requerimientos ++ [req_clean] }

/-- Python exception semantics for `agregar_requerimiento`: on a raise
the object keeps its prior state; the pair is (state after, error if
raised). -/
def agregarState (p : ProyectoSoftware) (s : String) :
    ProyectoSoftware × Option PyError :=
  match agregar_requerimiento p s with
  | .ok q => (q, none)
  | .error e => (p, some e)

/-- Method `resumen_progreso`: index of the current phase (0 when not
found), then `int(((idx + 1) / total) * 100)` computed in Python with
floats; for every reachable index 0..5 the float result coincides with
the exact truncated integer division `((idx + 1) * 100) / 6` used here
(checked value by value: 16, 33, 50, 66, 83, 100). -/
def resumen_progreso (p : ProyectoSoftware) : Nat :=
  let idx := (listIndexOf CICLO_VIDA p.fase_actual).getD 0
  ((idx + 1) * 100) / CICLO_VIDA.length

/-- Serialization of `fecha_a_iso` inside `exportar_json`. -/
def optDateToJson : Option Date → JValue
  | some d => .str (dateToIso d)
  | none => .null

/-- The `data` dictionary written by `exportar_json`, key for key. -/
def exportFields (p : ProyectoSoftware) : List (String × JValue) :=
  [("nombre", .str p.nombre),
   ("descripcion", .str p.descripcion),
   ("requerimientos", .arr (p.requerimientos.map .str)),
   ("fase_actual", .str p.fase_actual),
   ("equipo", .arr (p.equipo.map .str)),
   ("fecha_inicio", optDateToJson p.fecha_inicio),
   ("fecha_fin_estimada", optDateToJson p.fecha_fin_estimada),
   ("ciclo_vida", .arr (CICLO_VIDA.map .str)),
   ("progreso_aproximado", .num (resumen_progreso p))]

/-- Content of a file on disk: either text that `json.load` rejects, or
a parsed JSON value (the embedding works at the parsed level, so the
UTF-8 text round trip of `json.dump`/`json.load` is the identity here). -/
inductive FileContent where
  | invalidJson (raw : String) : FileContent
  | validJson (j : JValue) : FileContent

/-- The file system: a map from absolute paths to file contents. -/
def FS : Type := String → Option FileContent

/-- The `FileExistsError` of `exportar_json`. -/
inductive ExportError where
  | alreadyExists : ExportError
deriving DecidableEq, Repr

/-- Errors of `cargar_json`: `FileNotFoundError`, `json.JSONDecodeError`,
and the `AttributeError` Python raises in `raw.get` when the parsed
JSON top level is not an object. -/
inductive LoadError where
  | notFound : LoadError
  | malformedInput : LoadError
  | notAnObject : LoadError
deriving DecidableEq, Repr

/-- Method `exportar_json` on an explicit file system.  The path
resolution `os.path.abspath` is abstracted into the `abspath`
parameter; the default-filename branch (`ruta is None`) is not needed
by any claim, so `ruta` is always supplied.  Returns (return value or
raised error, file system after the call); the method never mutates
the record, which is why no record is returned. -/
def exportar_json (abspath : String → String) (p : ProyectoSoftware)
    (ruta : String) (sobrescribir : Bool) (fs : FS) :
    Except ExportError String × FS :=
  let abs_path := abspath ruta
  if sobrescribir = false ∧ (fs abs_path).isSome then
    (.error .alreadyExists, fs)
  else
    (.ok abs_path, fun q => if q = abs_path then some (.validJson (.obj (exportFields p))) else fs q)

/-- Helper `iso_a_fecha` of `cargar_json`: `None` (the JSON `null` or a
missing key) gives `None`; a non-string or a whitespace-only string
gives `None`; else `date.fromisoformat`, falling back to
`datetime.fromisoformat` and its date part, and `None` when both
raise.  The argument is the result of `raw.get`, so `none` stands for
a missing key and `some .null` for a stored `null` (both are the
Python `None`). -/
def iso_a_fecha (v : Option JValue) : Option Date :=
  match v with
  | none => none
  | some .null => none
  | some (.str s) =>
    if pyStrip s = "" then none
    else
      match parseIsoDate s with
      | some d => some d
      | none => parseIsoDatetimeDate s
  | some _ => none

/-- String elements of a JSON array.  The source stores the elements of
`requerimientos`/`equipo` untyped; every file the source itself writes
holds only strings there, and the model restricts to that domain. -/
def strElems (xs : List JValue) : List String :=
  xs.filterMap fun v => match v with | .str s => some s | _ => none

/-- Field extraction `raw.get(k, dflt)` for the string fields `nombre`
and `descripcion`.  A present non-string value, which Python would
store untyped in the record, is outside the modeled domain and falls
back to the default. -/
def getStrD (kvs : List (String × JValue)) (k : String) (dflt : String) : String :=
  match jget kvs k with
  | some (.str s) => s
  | _ => dflt

/-- Field extraction `raw.get(k) or []` for the list fields: a missing
key, `null`, or any non-array value gives the empty list. -/
def getListD (kvs : List (String × JValue)) (k : String) : List String :=
  match jget kvs k with
  | some (.arr xs) => strElems xs
  | _ => []

/-- Field extraction `raw.get("fase_actual", "análisis")`: the default
on a missing key; a stored `null` becomes the Python `None`, which the
constructor `or`-defaults, modeled by the empty string (a stored
non-string would make Python crash later in `strip`; it is modeled by
the same reset). -/
def getFaseD (kvs : List (String × JValue)) : String :=
  match jget kvs "fase_actual" with
  | none => "análisis"
  | some (.str s) => s
  | some _ => ""

/-- Body of `cargar_json` after a successful `json.load` of an object:
extract the seven fields with their defaults and build the record
through the normal construction path. -/
def cargarFromJson (today : Date) (kvs : List (String × JValue)) : ProyectoSoftware :=
  mkProyecto today
    (getStrD kvs "nombre" "Proyecto sin nombre")
    (getStrD kvs "descripcion" "")
    (some (getListD kvs "requerimientos"))
    (getFaseD kvs)
    (some (getListD kvs "equipo"))
    (iso_a_fecha (jget kvs "fecha_inicio"))
    (iso_a_fecha (jget kvs "fecha_fin_estimada"))

/-- Classmethod `cargar_json` on the explicit file system:
`FileNotFoundError` when the path is absent, `json.JSONDecodeError`
when the content is not valid JSON, else the record built from the
parsed object (`today` is the `date.today()` of the construction
path). -/
def cargar_json (today : Date) (fs : FS) (ruta : String) :
    Except LoadError ProyectoSoftware :=
  match fs ruta with
  | none => .error .notFound
  | some (.invalidJson _) => .error .malformedInput
  | some (.validJson (.obj kvs)) => .ok (cargarFromJson today kvs)
  | some (.validJson _) => .error .notAnObject

theorem listIndexOf_some_lt {α : Type} [DecidableEq α] :
    ∀ (l : List α) (s : α) (i : Nat), listIndexOf l s = some i → i < l.length := by
  intro l
  induction l with
  | nil => intro s i h; simp [listIndexOf] at h
  | cons a t ih =>
    intro s i h
    rw [listIndexOf] at h
    by_cases ha : a = s
    · rw [if_pos ha] at h
      cases h
      simp
    · rw [if_neg ha] at h
      cases ht : listIndexOf t s with
      | none => rw [ht] at h; simp at h
      | some j =>
        rw [ht] at h
        simp at h
        have := ih s j ht
        simp [← h]
        omega

theorem listIndexOf_some_mem {α : Type} [DecidableEq α] :
    ∀ (l : List α) (s : α) (i : Nat), listIndexOf l s = some i → s ∈ l := by
  intro l
  induction l with
  | nil => intro s i h; simp [listIndexOf] at h
  | cons a t ih =>
    intro s i h
    rw [listIndexOf] at h
    by_cases ha : a = s
    · subst ha; exact List.mem_cons_self a t
    · rw [if_neg ha] at h
      cases ht : listIndexOf t s with
      | none => rw [ht] at h; simp at h
      | some j => exact List.mem_cons_of_mem a (ih s j ht)

theorem dropWhile_ne_nil {α : Type} (p : α → Bool) :
    ∀ (l : List α) (c : α), c ∈ l → p c = false → l.dropWhile p ≠ [] := by
  intro l
  induction l with
  | nil => intro c hc _; cases hc
  | cons a t ih =>
    intro c hc hp
    rw [List.dropWhile_cons]
    rcases List.mem_cons.mp hc with h | h
    · subst h; simp [hp]
    · by_cases ha : p a = true
      · simpa [ha] using ih c h hp
      · simp [ha]

theorem pyStrip_ne_empty (s : String) (c : Char) (rest : List Char)
    (hd : s.data = c :: rest) (hc : isPySpace c = false) : pyStrip s ≠ "" := by
  unfold pyStrip
  rw [hd]
  intro h
  have h2 : (((c :: rest).dropWhile isPySpace).reverse.dropWhile isPySpace).reverse = [] := by
    simpa using congrArg String.data h
  rw [List.reverse_eq_nil_iff] at h2
  have h1 : (c :: rest).dropWhile isPySpace = c :: rest := by
    rw [List.dropWhile_cons]; simp [hc]
  rw [h1] at h2
  exact dropWhile_ne_nil isPySpace (c :: rest).reverse c (by simp) hc h2

theorem parseDigit_digitChar (m : Nat) (h : m < 10) :
    parseDigit (digitChar m) = some m := by
  interval_cases m <;> rfl

theorem parseDigit_not_space (c : Char) (h : (parseDigit c).isSome) :
    isPySpace c = false := by
  by_contra hne
  have hsp : isPySpace c = true := by
    cases hb : isPySpace c
    · exact absurd hb hne
    · rfl
  have : parseDigit c = none := by
    simp only [isPySpace, Bool.or_eq_true, beq_iff_eq] at hsp
    rcases hsp with ((((h1 | h1) | h1) | h1) | h1) | h1 <;> subst h1 <;> rfl
  rw [this] at h
  simp at h

theorem charsToDate_some_head (cs : List Char) (d : Date)
    (h : charsToDate cs = some d) :
    ∃ c rest, cs = c :: rest ∧ (parseDigit c).isSome := by
  rcases cs with _ | ⟨a, _ | ⟨b, _ | ⟨c3, _ | ⟨d4, _ | ⟨e5, _ | ⟨f6, _ | ⟨g7, _ | ⟨h8, _ | ⟨i9, _ | ⟨j10, rest⟩⟩⟩⟩⟩⟩⟩⟩⟩⟩ <;>
    try simp [charsToDate] at h
  rcases rest with _ | ⟨k, rest2⟩
  · simp only [charsToDate] at h
    split at h
    · cases hpa : parseDigit a with
      | none => rw [hpa] at h; simp at h
      | some v => exact ⟨a, _, rfl, by rw [hpa]; rfl⟩
    · simp at h
  · simp [charsToDate] at h

theorem daysInMonth_le (y m : Nat) : daysInMonth y m ≤ 31 := by
  unfold daysInMonth
  split
  · split <;> omega
  · split <;> omega

theorem parseIsoDate_dateToIso (d : Date) (h : d.valid) :
    parseIsoDate (dateToIso d) = some d := by
  obtain ⟨y, m, dy⟩ := d
  obtain ⟨h1, h2, h3, h4, h5, h6⟩ := h
  replace h1 : 1 ≤ y := h1
  replace h2 : y ≤ 9999 := h2
  replace h3 : 1 ≤ m := h3
  replace h4 : m ≤ 12 := h4
  replace h5 : 1 ≤ dy := h5
  replace h6 : dy ≤ daysInMonth y m := h6
  have hdm : daysInMonth y m ≤ 31 := daysInMonth_le y m
  show charsToDate (fourDigits y ++ '-' :: twoDigits m ++ '-' :: twoDigits dy) =
    some ⟨y, m, dy⟩
  simp only [fourDigits, twoDigits, List.cons_append, List.nil_append]
  simp only [charsToDate]
  rw [if_pos (⟨trivial, trivial⟩ : True ∧ True)]
  rw [parseDigit_digitChar (y / 1000 % 10) (Nat.mod_lt _ (by norm_num)),
      parseDigit_digitChar (y / 100 % 10) (Nat.mod_lt _ (by norm_num)),
      parseDigit_digitChar (y / 10 % 10) (Nat.mod_lt _ (by norm_num)),
      parseDigit_digitChar (y % 10) (Nat.mod_lt _ (by norm_num)),
      parseDigit_digitChar (m / 10 % 10) (Nat.mod_lt _ (by norm_num)),
      parseDigit_digitChar (m % 10) (Nat.mod_lt _ (by norm_num)),
      parseDigit_digitChar (dy / 10 % 10) (Nat.mod_lt _ (by norm_num)),
      parseDigit_digitChar (dy % 10) (Nat.mod_lt _ (by norm_num))]
  simp only [Option.some_bind]
  have ey : ((y / 1000 % 10 * 10 + y / 100 % 10) * 10 + y / 10 % 10) * 10 + y % 10 = y := by
    omega
  have em : m / 10 % 10 * 10 + m % 10 = m := by omega
  have ed : dy / 10 % 10 * 10 + dy % 10 = dy := by omega
  rw [ey, em, ed, mkValidDate,
      if_pos (show Date.valid ⟨y, m, dy⟩ from ⟨h1, h2, h3, h4, h5, h6⟩)]

theorem iso_a_fecha_of_parseIsoDate (s : String) (d : Date)
    (h : parseIsoDate s = some d) : iso_a_fecha (some (.str s)) = some d := by
  obtain ⟨c, rest, hcs, hdig⟩ := charsToDate_some_head s.data d h
  have hns : pyStrip s ≠ "" := pyStrip_ne_empty s c rest hcs (parseDigit_not_space c hdig)
  simp only [iso_a_fecha]
  rw [if_neg hns, h]

theorem strElems_map_str (l : List String) : strElems (l.map JValue.str) = l := by
  induction l with
  | nil => rfl
  | cons a t ih =>
    simp only [List.map_cons, strElems, List.filterMap_cons] at ih ⊢
    rw [ih]

theorem validarFase_mem (f : String) (h : f ∈ CICLO_VIDA) : validarFase f = f := by
  fin_cases h <;> rfl

theorem ciclo_getD_mem (k : Nat) : CICLO_VIDA.getD k "análisis" ∈ CICLO_VIDA := by
  rcases lt_or_ge k 6 with h | h
  · interval_cases k <;> decide
  · have : CICLO_VIDA.getD k "análisis" = "análisis" := by
      apply List.getD_eq_default
      simp [CICLO_VIDA]
      omega
    rw [this]
    decide

/-- C2: for every record, `fase_actual` is a member of the 6-element
lifecycle sequence immediately after construction (the supplied value is
stripped and lowercased, and any non-member result, including the empty
or whitespace-only one, silently resets to the first phase "análisis")
and after every mutation (`avanzar_fase`, `agregar_requerimiento`). -/
theorem c2_fase_invariant :
    (∀ today nombre descripcion reqs fase equipo fi ff,
      (mkProyecto today nombre descripcion reqs fase equipo fi ff).fase_actual ∈ CICLO_VIDA) ∧
    (∀ today nombre descripcion reqs fase equipo fi ff, normFase fase ∈ CICLO_VIDA →
      (mkProyecto today nombre descripcion reqs fase equipo fi ff).fase_actual = normFase fase) ∧
    (∀ today nombre descripcion reqs fase equipo fi ff, normFase fase ∉ CICLO_VIDA →
      (mkProyecto today nombre descripcion reqs fase equipo fi ff).fase_actual = "análisis") ∧
    (∀ p : ProyectoSoftware, ((avanzar_fase p).2).fase_actual ∈ CICLO_VIDA) ∧
    (∀ (p : ProyectoSoftware) (s : String) (q : ProyectoSoftware),
      agregar_requerimiento p s = .ok q → q.fase_actual = p.fase_actual) := by
  refine ⟨?_, ?_, ?_, ?_, ?_⟩
  · intro today n de reqs fase eq fi ff
    simp only [mkProyecto, validarFase]
    split
    · assumption
    · decide
  · intro today n de reqs fase eq fi ff h
    simp only [mkProyecto, validarFase]
    rw [if_pos h]
  · intro today n de reqs fase eq fi ff h
    simp only [mkProyecto, validarFase]
    rw [if_neg h]
  · intro p
    rcases hIdx : listIndexOf CICLO_VIDA p.fase_actual with _ | i
    · simp only [avanzar_fase, hIdx]
      split
      · exact ciclo_getD_mem 1
      · exact (show ("análisis" : String) ∈ CICLO_VIDA by decide)
    · simp only [avanzar_fase, hIdx]
      split
      · exact ciclo_getD_mem (i + 1)
      · exact listIndexOf_some_mem CICLO_VIDA p.fase_actual i hIdx
  · intro p s q h
    simp only [agregar_requerimiento] at h
    split at h
    · simp at h
    · split at h
      · cases h; rfl
      · cases h; rfl

/-- Witness for C2: the phase "  DISEÑO " with surrounding whitespace and
uppercase letters normalizes into the lifecycle and is kept. -/
theorem c2_fase_invariant_witness :
    normFase "  DISEÑO " ∈ CICLO_VIDA ∧
    (mkProyecto ⟨2025, 1, 1⟩ "P" "D" none "  DISEÑO " none none none).fase_actual =
      normFase "  DISEÑO " :=
  ⟨by decide,
   c2_fase_invariant.2.1 ⟨2025, 1, 1⟩ "P" "D" none "  DISEÑO " none none none (by decide)⟩

/-- C3: `avanzar_fase` at lifecycle index `i < 5` moves to index `i + 1`
and returns true; at the last index it returns false and leaves the
record unchanged; from "análisis" five calls each return true reaching
"mantenimiento", and a sixth returns false with the state unchanged. -/
theorem c3_avanzar_fase :
    (∀ (p : ProyectoSoftware) (i : Nat), listIndexOf CICLO_VIDA p.fase_actual = some i →
      i < 5 →
      avanzar_fase p = (true, { p with fase_actual := CICLO_VIDA.getD (i + 1) "análisis" })) ∧
    (∀ p : ProyectoSoftware, listIndexOf CICLO_VIDA p.fase_actual = some 5 →
      avanzar_fase p = (false, p)) ∧
    (∀ p : ProyectoSoftware, p.fase_actual = "análisis" →
      avanzar_fase p = (true, { p with fase_actual := "diseño" }) ∧
      avanzar_fase { p with fase_actual := "diseño" } =
        (true, { p with fase_actual := "desarrollo" }) ∧
      avanzar_fase { p with fase_actual := "desarrollo" } =
        (true, { p with fase_actual := "pruebas" }) ∧
      avanzar_fase { p with fase_actual := "pruebas" } =
        (true, { p with fase_actual := "implementación" }) ∧
      avanzar_fase { p with fase_actual := "implementación" } =
        (true, { p with fase_actual := "mantenimiento" }) ∧
      avanzar_fase { p with fase_actual := "mantenimiento" } =
        (false, { p with fase_actual := "mantenimiento" })) := by
  refine ⟨?_, ?_, ?_⟩
  · intro p i hIdx hlt
    have h5 : i < CICLO_VIDA.length - 1 := by simp [CICLO_VIDA]; omega
    simp only [avanzar_fase, hIdx]
    rw [if_pos h5]
  · intro p hIdx
    simp only [avanzar_fase, hIdx]
    rw [if_neg (by simp [CICLO_VIDA])]
  · intro p h
    obtain ⟨n, de, re, fa, eq, fi, ff⟩ := p
    have h2 : fa = "análisis" := h
    subst h2
    exact ⟨rfl, rfl, rfl, rfl, rfl, rfl⟩

/-- Witness for C3: advancing from "análisis" (index 0). -/
theorem c3_avanzar_fase_witness :
    listIndexOf CICLO_VIDA "análisis" = some 0 ∧
    avanzar_fase ⟨"P", "D", [], "análisis", [], some ⟨2025, 1, 1⟩, none⟩ =
      (true, { (⟨"P", "D", [], "análisis", [], some ⟨2025, 1, 1⟩, none⟩ : ProyectoSoftware) with
        fase_actual := CICLO_VIDA.getD (0 + 1) "análisis" }) :=
  ⟨by decide,
   c3_avanzar_fase.1 ⟨"P", "D", [], "análisis", [], some ⟨2025, 1, 1⟩, none⟩ 0
     (by decide) (by decide)⟩

/-- C4: `resumen_progreso` returns the truncated value of
`((index + 1) / 6) * 100` where `index` is the 0-based position of the
current phase (0 when not found): it equals the floor division
`((index + 1) * 100) / 6`, satisfies the floor characterization
(truncation toward zero, no rounding up), gives 16 at index 0, 33 at
index 1 and 100 at index 5, and depends on nothing but `fase_actual`
(it is pure in the embedding, as in the source, which only reads
state). -/
theorem c4_resumen_progreso :
    (∀ (p : ProyectoSoftware) (i : Nat), listIndexOf CICLO_VIDA p.fase_actual = some i →
      resumen_progreso p = ((i + 1) * 100) / 6 ∧
      6 * resumen_progreso p ≤ (i + 1) * 100 ∧
      (i + 1) * 100 < 6 * (resumen_progreso p + 1)) ∧
    (∀ p : ProyectoSoftware, listIndexOf CICLO_VIDA p.fase_actual = none →
      resumen_progreso p = 16) ∧
    (∀ p : ProyectoSoftware, p.fase_actual = "análisis" → resumen_progreso p = 16) ∧
    (∀ p : ProyectoSoftware, p.fase_actual = "diseño" → resumen_progreso p = 33) ∧
    (∀ p : ProyectoSoftware, p.fase_actual = "mantenimiento" → resumen_progreso p = 100) ∧
    (∀ p q : ProyectoSoftware, p.fase_actual = q.fase_actual →
      resumen_progreso p = resumen_progreso q) := by
  refine ⟨?_, ?_, ?_, ?_, ?_, ?_⟩
  · intro p i h
    have he : resumen_progreso p = ((i + 1) * 100) / 6 := by
      simp only [resumen_progreso, h]
      rfl
    refine ⟨he, ?_, ?_⟩ <;> rw [he] <;> omega
  · intro p h
    simp only [resumen_progreso, h]
    rfl
  · intro p h
    simp only [resumen_progreso, h]
    decide
  · intro p h
    simp only [resumen_progreso, h]
    decide
  · intro p h
    simp only [resumen_progreso, h]
    decide
  · intro p q h
    simp [resumen_progreso, h]

/-- Witness for C4: the second phase "diseño" sits at index 1 and yields 33. -/
theorem c4_resumen_progreso_witness :
    listIndexOf CICLO_VIDA "diseño" = some 1 ∧
    (resumen_progreso ⟨"P", "D", [], "diseño", [], none, none⟩ = ((1 + 1) * 100) / 6 ∧
      6 * resumen_progreso ⟨"P", "D", [], "diseño", [], none, none⟩ ≤ (1 + 1) * 100 ∧
      (1 + 1) * 100 < 6 * (resumen_progreso ⟨"P", "D", [], "diseño", [], none, none⟩ + 1)) :=
  ⟨by decide, c4_resumen_progreso.1 ⟨"P", "D", [], "diseño", [], none, none⟩ 1 (by decide)⟩

/-- C5: `agregar_requerimiento` with a non-whitespace text is a silent
no-op when some stored requirement matches the trimmed text under the
trimmed case-insensitive comparison of the source, and otherwise
appends the trimmed text at the end; in particular adding "Login" and
then "  login  " to an empty requirement list stores exactly
["Login"]. -/
theorem c5_agregar_dedup :
    (∀ (p : ProyectoSoftware) (s : String), pyStrip s ≠ "" →
      ((p.requerimientos.any fun r => pyLower (pyStrip r) == pyLower (pyStrip s)) = true →
        agregar_requerimiento p s = .ok p) ∧
      ((p.requerimientos.any fun r => pyLower (pyStrip r) == pyLower (pyStrip s)) = false →
        agregar_requerimiento p s =
          .ok { p with requerimientos := p.requerimientos ++ [pyStrip s] })) ∧
    (∀ p : ProyectoSoftware, p.requerimientos = [] →
      agregar_requerimiento p "Login" = .ok { p with requerimientos := ["Login"] } ∧
      agregar_requerimiento { p with requerimientos := ["Login"] } "  login  " =
        .ok { p with requerimientos := ["Login"] }) := by
  constructor
  · intro p s hs
    have hne : ¬(s = "" ∨ pyStrip s = "") := by
      rintro (h | h)
      · exact hs (by rw [h]; rfl)
      · exact hs h
    constructor <;> intro hdup <;> simp only [agregar_requerimiento] <;>
      rw [if_neg hne] <;> simp only [hdup] <;> simp
  · intro p h
    obtain ⟨n, de, re, fa, eq, fi, ff⟩ := p
    have h2 : re = [] := h
    subst h2
    exact ⟨rfl, rfl⟩

/-- Witness for C5: the duplicate-suppression example on a concrete record. -/
theorem c5_agregar_dedup_witness :
    agregar_requerimiento ⟨"P", "D", [], "análisis", [], none, none⟩ "Login" =
      .ok { (⟨"P", "D", [], "análisis", [], none, none⟩ : ProyectoSoftware) with
        requerimientos := ["Login"] } ∧
    agregar_requerimiento
      { (⟨"P", "D", [], "análisis", [], none, none⟩ : ProyectoSoftware) with
        requerimientos := ["Login"] } "  login  " =
      .ok { (⟨"P", "D", [], "análisis", [], none, none⟩ : ProyectoSoftware) with
        requerimientos := ["Login"] } :=
  c5_agregar_dedup.2 ⟨"P", "D", [], "análisis", [], none, none⟩ rfl

theorem agregar_error_of_strip (p : ProyectoSoftware) (s : String)
    (h : pyStrip s = "") : agregar_requerimiento p s = .error .valueError := by
  simp only [agregar_requerimiento]
  rw [if_pos (Or.inr h)]

/-- C6: `agregar_requerimiento` raises `ValueError` exactly when the text
is empty or whitespace-only, and on that failure the record keeps its
prior state (in the embedding the raising call returns the unchanged
record, mirroring that the source raises before any mutation). -/
theorem c6_agregar_error :
    (∀ (p : ProyectoSoftware) (s : String),
      agregar_requerimiento p s = .error .valueError ↔ pyStrip s = "") ∧
    (∀ (p : ProyectoSoftware) (s : String), pyStrip s = "" →
      agregarState p s = (p, some .valueError)) := by
  constructor
  · intro p s
    constructor
    · intro h
      by_cases hc : s = "" ∨ pyStrip s = ""
      · rcases hc with hc | hc
        · rw [hc]; rfl
        · exact hc
      · simp only [agregar_requerimiento, if_neg hc] at h
        split at h <;> simp at h
    · intro h
      exact agregar_error_of_strip p s h
  · intro p s h
    unfold agregarState
    rw [agregar_error_of_strip p s h]

/-- Witness for C6: the empty and the whitespace-only texts both raise
and leave the record untouched. -/
theorem c6_agregar_error_witness :
    agregarState ⟨"P", "D", ["Login"], "análisis", [], none, none⟩ "" =
      (⟨"P", "D", ["Login"], "análisis", [], none, none⟩, some .valueError) ∧
    agregarState ⟨"P", "D", ["Login"], "análisis", [], none, none⟩ "   " =
      (⟨"P", "D", ["Login"], "análisis", [], none, none⟩, some .valueError) :=
  ⟨c6_agregar_error.2 ⟨"P", "D", ["Login"], "análisis", [], none, none⟩ "" rfl,
   c6_agregar_error.2 ⟨"P", "D", ["Login"], "análisis", [], none, none⟩ "   " rfl⟩

/-- C7: `cargar_json` fails with `FileNotFoundError` when no file exists
at the path and with `json.JSONDecodeError` when the file exists but its
content is not valid JSON; in both cases no record is produced (the
result is the error, never `ok`). -/
theorem c7_cargar_json_errors :
    (∀ (today : Date) (fs : FS) (ruta : String), fs ruta = none →
      cargar_json today fs ruta = .error .notFound) ∧
    (∀ (today : Date) (fs : FS) (ruta raw : String),
      fs ruta = some (.invalidJson raw) →
      cargar_json today fs ruta = .error .malformedInput) := by
  constructor
  · intro today fs ruta h
    simp [cargar_json, h]
  · intro today fs ruta raw h
    simp [cargar_json, h]

/-- Witness for C7: a missing path and a file holding the text
"not json". -/
theorem c7_cargar_json_errors_witness :
    cargar_json ⟨2025, 1, 1⟩ (fun _ => none) "missing.json" = .error .notFound ∧
    cargar_json ⟨2025, 1, 1⟩ (fun _ => some (.invalidJson "not json")) "bad.json" =
      .error .malformedInput :=
  ⟨c7_cargar_json_errors.1 ⟨2025, 1, 1⟩ (fun _ => none) "missing.json" rfl,
   c7_cargar_json_errors.2 ⟨2025, 1, 1⟩ (fun _ => some (.invalidJson "not json"))
     "bad.json" "not json" rfl⟩

/-- C8: `exportar_json` with `sobrescribir = false` on a path whose file
exists fails with `FileExistsError` and leaves the whole file system,
in particular that file, unmodified (the record is not touched either:
the method never writes to the record, which the embedding reflects by
not returning one); with `sobrescribir = true` it returns the resolved
absolute path, writes the serialized record there, and touches no other
path. -/
theorem c8_exportar_json_overwrite :
    (∀ (abspath : String → String) (p : ProyectoSoftware) (ruta : String) (fs : FS)
      (c : FileContent), fs (abspath ruta) = some c →
      exportar_json abspath p ruta false fs = (.error .alreadyExists, fs)) ∧
    (∀ (abspath : String → String) (p : ProyectoSoftware) (ruta : String) (fs : FS),
      (exportar_json abspath p ruta true fs).1 = .ok (abspath ruta) ∧
      (exportar_json abspath p ruta true fs).2 (abspath ruta) =
        some (.validJson (.obj (exportFields p))) ∧
      ∀ q, q ≠ abspath ruta → (exportar_json abspath p ruta true fs).2 q = fs q) := by
  constructor
  · intro abspath p ruta fs c h
    simp only [exportar_json]
    rw [if_pos ⟨trivial, by rw [h]; rfl⟩]
  · intro abspath p ruta fs
    refine ⟨rfl, by simp [exportar_json], ?_⟩
    intro q hq
    simp [exportar_json, hq]

/-- Witness for C8: an existing file at the target path with
`sobrescribir = false`. -/
theorem c8_exportar_json_overwrite_witness :
    exportar_json id ⟨"P", "D", [], "análisis", [], none, none⟩ "out.json" false
      (fun _ => some (.invalidJson "old")) =
      (.error .alreadyExists, fun _ => some (.invalidJson "old")) :=
  c8_exportar_json_overwrite.1 id ⟨"P", "D", [], "análisis", [], none, none⟩
    "out.json" (fun _ => some (.invalidJson "old")) (.invalidJson "old") rfl

/-- C9: during load, a date field parsing as `YYYY-MM-DD` becomes that
calendar date; failing that, a value parsing as a full ISO 8601
date-time yields only its date portion; failing both, or when it is
null, absent, or not a string, the field resolves to absent with no
error; and an absent `fecha_inicio` is re-defaulted to today by the
construction path. -/
theorem c9_iso_a_fecha :
    (∀ (s : String) (d : Date), parseIsoDate s = some d →
      iso_a_fecha (some (.str s)) = some d) ∧
    (∀ s : String, parseIsoDate s = none → pyStrip s ≠ "" →
      iso_a_fecha (some (.str s)) = parseIsoDatetimeDate s) ∧
    (∀ s : String, pyStrip s = "" → iso_a_fecha (some (.str s)) = none) ∧
    iso_a_fecha none = none ∧
    iso_a_fecha (some .null) = none ∧
    (∀ b, iso_a_fecha (some (.bool b)) = none) ∧
    (∀ n, iso_a_fecha (some (.num n)) = none) ∧
    (∀ xs, iso_a_fecha (some (.arr xs)) = none) ∧
    (∀ kvs, iso_a_fecha (some (.obj kvs)) = none) ∧
    (∀ (today : Date) (kvs : List (String × JValue)),
      iso_a_fecha (jget kvs "fecha_inicio") = none →
      (cargarFromJson today kvs).fecha_inicio = some today) := by
  refine ⟨?_, ?_, ?_, rfl, rfl, fun b => rfl, fun n => rfl, fun xs => rfl,
    fun kvs => rfl, ?_⟩
  · intro s d h
    exact iso_a_fecha_of_parseIsoDate s d h
  · intro s h hs
    simp only [iso_a_fecha]
    rw [if_neg hs, h]
  · intro s h
    simp only [iso_a_fecha]
    rw [if_pos h]
  · intro today kvs h
    simp [cargarFromJson, mkProyecto, h]

/-- Witness for C9: a plain date string parses directly; a date-time
string fails the strict date parse and falls back to the date-time
parse, whose date portion it becomes. -/
theorem c9_iso_a_fecha_witness :
    parseIsoDate "2025-11-01" = some ⟨2025, 11, 1⟩ ∧
    iso_a_fecha (some (.str "2025-11-01")) = some ⟨2025, 11, 1⟩ ∧
    parseIsoDate "2025-11-01T10:30:00" = none ∧
    pyStrip "2025-11-01T10:30:00" ≠ "" ∧
    iso_a_fecha (some (.str "2025-11-01T10:30:00")) =
      parseIsoDatetimeDate "2025-11-01T10:30:00" ∧
    parseIsoDatetimeDate "2025-11-01T10:30:00" = some ⟨2025, 11, 1⟩ :=
  ⟨by decide,
   c9_iso_a_fecha.1 "2025-11-01" ⟨2025, 11, 1⟩ (by decide),
   by decide,
   by decide,
   c9_iso_a_fecha.2.1 "2025-11-01T10:30:00" (by decide) (by decide),
   by decide⟩

/-- C10: `cargar_json` never reads the `ciclo_vida` or
`progreso_aproximado` keys: the loaded record is fully determined by
the other seven keys, and the progress percentage is recomputed from
`fase_actual`, so a stored `progreso_aproximado` of 99 next to the
phase "diseño" yields a record whose progress is 33, not 99. -/
theorem c10_cargar_ignores_extra_keys :
    (∀ (today : Date) (kvs1 kvs2 : List (String × JValue)),
      (∀ k ∈ ["nombre", "descripcion", "requerimientos", "fase_actual", "equipo",
              "fecha_inicio", "fecha_fin_estimada"], jget kvs1 k = jget kvs2 k) →
      cargarFromJson today kvs1 = cargarFromJson today kvs2) ∧
    (∀ today : Date,
      resumen_progreso (cargarFromJson today
        [("fase_actual", .str "diseño"), ("progreso_aproximado", .num 99)]) = 33) := by
  constructor
  · intro today kvs1 kvs2 h
    have hn := h "nombre" (by simp)
    have hd := h "descripcion" (by simp)
    have hr := h "requerimientos" (by simp)
    have hf := h "fase_actual" (by simp)
    have he := h "equipo" (by simp)
    have hi := h "fecha_inicio" (by simp)
    have hff := h "fecha_fin_estimada" (by simp)
    simp only [cargarFromJson, getStrD, getListD, getFaseD]
    rw [hn, hd, hr, hf, he, hi, hff]
  · intro today
    have hf : (cargarFromJson today
        [("fase_actual", JValue.str "diseño"),
         ("progreso_aproximado", JValue.num 99)]).fase_actual = "diseño" := rfl
    simp only [resumen_progreso, hf]
    decide

/-- Witness for C10: two objects differing only in the ignored keys load
to the same record. -/
theorem c10_cargar_ignores_extra_keys_witness :
    cargarFromJson ⟨2025, 1, 1⟩ [("ciclo_vida", .num 0)] =
      cargarFromJson ⟨2025, 1, 1⟩ [("progreso_aproximado", .num 99)] :=
  c10_cargar_ignores_extra_keys.1 ⟨2025, 1, 1⟩ [("ciclo_vida", .num 0)]
    [("progreso_aproximado", .num 99)] (by intro k hk; fin_cases hk <;> rfl)

/-- C1: for every record whose `fecha_inicio` is set, loading the JSON
file produced by exporting it yields a record whose seven data fields
equal those of the original (dates compared at day granularity, which
is the only granularity the record stores).  The hypotheses are the
construction invariants every Python record satisfies: the current
phase is a lifecycle member and every `datetime.date` lies in the
constructor range. -/
theorem c1_round_trip (abspath : String → String) (fs : FS) (ruta : String)
    (today : Date) (r : ProyectoSoftware) (d : Date)
    (hfase : r.fase_actual ∈ CICLO_VIDA)
    (hstart : r.fecha_inicio = some d) (hd : d.valid)
    (hend : ∀ d2, r.fecha_fin_estimada = some d2 → d2.valid) :
    ∃ fs2 : FS, exportar_json abspath r ruta true fs = (.ok (abspath ruta), fs2) ∧
      ∃ r2, cargar_json today fs2 (abspath ruta) = .ok r2 ∧
        r2.nombre = r.nombre ∧ r2.descripcion = r.descripcion ∧
        r2.requerimientos = r.requerimientos ∧ r2.fase_actual = r.fase_actual ∧
        r2.equipo = r.equipo ∧ r2.fecha_inicio = r.fecha_inicio ∧
        r2.fecha_fin_estimada = r.fecha_fin_estimada := by
  refine ⟨fun q => if q = abspath ruta
      then some (.validJson (.obj (exportFields r))) else fs q, ?_, ?_⟩
  · simp only [exportar_json]
    rw [if_neg (by simp)]
  · refine ⟨cargarFromJson today (exportFields r), ?_, ?_, rfl, ?_, ?_, ?_, ?_, ?_⟩
    · simp [cargar_json]
    · rfl
    · show strElems (r.requerimientos.map .str) = r.requerimientos
      exact strElems_map_str r.requerimientos
    · show validarFase r.fase_actual = r.fase_actual
      exact validarFase_mem r.fase_actual hfase
    · show strElems (r.equipo.map .str) = r.equipo
      exact strElems_map_str r.equipo
    · show some ((iso_a_fecha (some (optDateToJson r.fecha_inicio))).getD today) =
        r.fecha_inicio
      rw [hstart]
      rw [show optDateToJson (some d) = .str (dateToIso d) from rfl]
      rw [iso_a_fecha_of_parseIsoDate (dateToIso d) d (parseIsoDate_dateToIso d hd)]
      rfl
    · show iso_a_fecha (some (optDateToJson r.fecha_fin_estimada)) =
        r.fecha_fin_estimada
      cases hff : r.fecha_fin_estimada with
      | none => rfl
      | some d2 =>
        rw [show optDateToJson (some d2) = .str (dateToIso d2) from rfl]
        rw [iso_a_fecha_of_parseIsoDate (dateToIso d2) d2
          (parseIsoDate_dateToIso d2 (hend d2 hff))]

/-- Witness for C1: a concrete record with both dates set round trips
through a file system holding nothing else. -/
theorem c1_round_trip_witness :
    ∃ fs2 : FS,
      exportar_json id
        ⟨"P", "D", ["Login"], "análisis", ["Ana"], some ⟨2025, 11, 1⟩, some ⟨2026, 4, 30⟩⟩
        "p.json" true (fun _ => none) = (.ok (id "p.json"), fs2) ∧
      ∃ r2, cargar_json ⟨2025, 1, 2⟩ fs2 (id "p.json") = .ok r2 ∧
        r2.nombre = "P" ∧ r2.descripcion = "D" ∧
        r2.requerimientos = ["Login"] ∧ r2.fase_actual = "análisis" ∧
        r2.equipo = ["Ana"] ∧ r2.fecha_inicio = some ⟨2025, 11, 1⟩ ∧
        r2.fecha_fin_estimada = some ⟨2026, 4, 30⟩ :=
  c1_round_trip id (fun _ => none) "p.json" ⟨2025, 1, 2⟩
    ⟨"P", "D", ["Login"], "análisis", ["Ana"], some ⟨2025, 11, 1⟩, some ⟨2026, 4, 30⟩⟩
    ⟨2025, 11, 1⟩ (by decide) rfl (by decide)
    (by intro d2 h; cases h; decide)
